import Mathlib

/-
Verification of the github-scanner control plane against its specification.

The Python sources are shallowly embedded as Lean definitions:
  - queue-worker/queue_worker.py : GitHubRateLimiter, KubernetesJobManager
    (job-name sanitizer), QueueWorker.process_queue and its status updates;
  - worker/worker.py  : URL parsing, safe-file lookup, path cleaning, branch
    extraction, severity/recommendation tables, vulnerability ingest,
    queue-status updates;
  - scheduler/scheduler.py : repository upsert and the enqueue path;
  - api/main.py : repository upsert + unconditional enqueue of trigger_scan,
    and the deduplicated-vulnerabilities view of list_vulnerabilities;
  - api/kubernetes_utils.py : the second copy of the job-name sanitizer.

Database tables are modelled as lists of rows; wall-clock instants as natural
numbers (seconds); the float `reset_time - time.time()` as a rational.
Sleeping is recorded in the result of the rate-limit gate rather than
performed.
-/

namespace GithubScanner

/-! ### GitHubRateLimiter (queue-worker/queue_worker.py)

`get_rate_limit_status` samples the GitHub API; we model each call site by the
`remaining` value (and, for the gate, the distance to the reported reset) that
the sample returned.  -/

/-- Result of `GitHubRateLimiter.wait_if_needed`: whether the caller may
proceed, and how many seconds the call slept (`none` when it did not sleep). -/
structure WaitResult where
  proceed : Bool
  slept : Option ℚ
deriving DecidableEq

/-- GitHubRateLimiter.calculate_safe_jobs (queue_worker.py lines 92-111):
`available = max(0, remaining - 500)`, then floor division by
`requests_per_job`. `remaining` comes from the core rate-limit sample. -/
def calculate_safe_jobs (remaining : ℤ) (requestsPerJob : ℤ) : ℤ :=
  max 0 (remaining - 500) / requestsPerJob

/-- GitHubRateLimiter.wait_if_needed (queue_worker.py lines 113-132).
`waitTime` is the value of `reset_time - time.time()`. The Python returns
`True` (proceed) or `False` (skip cycle); sleeping `wait_time + 5` happens
only in the `0 < wait_time <= 900` branch. -/
def wait_if_needed (remaining minRemaining : ℤ) (waitTime : ℚ) : WaitResult :=
  if remaining < minRemaining then
    if 0 < waitTime ∧ waitTime ≤ 900 then ⟨true, some (waitTime + 5)⟩
    else if 900 < waitTime then ⟨false, none⟩
    else ⟨true, none⟩
  else ⟨true, none⟩

/-! ### Job-name sanitizer (queue_worker.py lines 155-162 and
api/kubernetes_utils.py lines 31-38) -/

/-- One step of `re.sub(r'[^a-z0-9-]', '-', name)`: a character outside
`[a-z0-9-]` becomes `-`. -/
def sanitizeChar (c : Char) : Char :=
  if ('a' ≤ c ∧ c ≤ 'z') ∨ ('0' ≤ c ∧ c ≤ '9') ∨ c = '-' then c else '-'

/-- `re.sub(r'-+', '-', name)`: collapse each run of dashes to one dash. -/
def collapseDashes : List Char → List Char
  | [] => []
  | [c] => [c]
  | c :: d :: rest =>
    if c = '-' ∧ d = '-' then collapseDashes (d :: rest)
    else c :: collapseDashes (d :: rest)

/-- Python `str.strip('-')`: drop leading and trailing dashes. -/
def stripDashes (l : List Char) : List Char :=
  ((l.dropWhile (fun c => c = '-')).reverse.dropWhile (fun c => c = '-')).reverse

/-- KubernetesJobManager._sanitize_job_name (queue_worker.py lines 155-162):
`f"scan-{owner}-{name}-{id}".lower()`, replace chars outside `[a-z0-9-]` by
`-`, collapse dash runs, truncate to 63, strip dashes at both ends. -/
def sanitize_job_name (repoOwner repoName : String) (scanId : ℕ) : String :=
  let raw := "scan-" ++ repoOwner ++ "-" ++ repoName ++ "-" ++ toString scanId
  let lowered := raw.data.map Char.toLower
  let replaced := lowered.map sanitizeChar
  String.mk (stripDashes ((collapseDashes replaced).take 63))

/-- KubernetesJobManager._sanitize_job_name of api/kubernetes_utils.py
(lines 31-38); the code is character-identical to the queue-worker copy. -/
def sanitize_job_name_api (repoOwner repoName : String) (scanId : ℕ) : String :=
  let raw := "scan-" ++ repoOwner ++ "-" ++ repoName ++ "-" ++ toString scanId
  let lowered := raw.data.map Char.toLower
  let replaced := lowered.map sanitizeChar
  String.mk (stripDashes ((collapseDashes replaced).take 63))

/-! ### Repository-URL parsing (worker.py lines 169-182, api/main.py 69-81)

Both functions run `re.search` with the pattern list
`[r'github\.com[:/]([^/]+)/([^/\.]+)', r'github\.com/([^/]+)/([^/]+)\.git']`
and return the first match's two groups.  We embed `re.search` for exactly
these two patterns: the search tries every start position left to right; at a
position, pattern 1 matches iff the literal `github.com` is followed by `:`
or `/`, a nonempty maximal run of non-`/` characters, a `/`, and a nonempty
maximal run of characters outside `/.`.  (Backtracking cannot shorten the
first group: every shorter prefix of the run is followed by a non-`/`
character.)  Pattern 2 needs `github.com/`, a nonempty non-`/` run, `/`, then
the longest nonempty non-`/` prefix followed by the literal `.git`. -/

/-- Strip an exact character sequence from the front, or fail. -/
def stripExact : List Char → List Char → Option (List Char)
  | [], s => some s
  | _ :: _, [] => none
  | c :: cs, d :: ds => if c = d then stripExact cs ds else none

/-- The `([^/]+)/([^/\.]+)` part of pattern 1, applied after the `[:/]`
character: a nonempty maximal non-`/` run, the `/` (the head of the
dropWhile remainder, which is `/` exactly when that remainder is nonempty),
then a nonempty maximal run outside `/.`. -/
def pat1Groups (rest : List Char) : Option (List Char × List Char) :=
  let g1 := rest.takeWhile (fun a => !(a == '/'))
  let r1 := rest.dropWhile (fun a => !(a == '/'))
  if g1 = [] then none
  else if r1 = [] then none
  else
    let g2 := r1.tail.takeWhile (fun a => !(a == '/' || a == '.'))
    if g2 = [] then none else some (g1, g2)

/-- The `[:/]` character class followed by the groups of pattern 1. -/
def pat1Head : List Char → Option (List Char × List Char)
  | [] => none
  | c :: rest => if c = ':' ∨ c = '/' then pat1Groups rest else none

/-- Match `github\.com[:/]([^/]+)/([^/\.]+)` at the start of `s`. -/
def matchPat1 (s : List Char) : Option (List Char × List Char) :=
  (stripExact "github.com".data s).bind pat1Head

/-- Largest index `k` with `1 ≤ k`, `k + 4 ≤ run.length` and `.git` at
position `k` of `run`; the search starts at the bound given as the second
argument and walks down.  Models the greedy `([^/]+)\.git` group. -/
def bestGitIdx (run : List Char) : ℕ → Option ℕ
  | 0 => none
  | k + 1 =>
    if (run.drop (k + 1)).take 4 = ('.' :: 'g' :: 'i' :: 't' :: []) then some (k + 1)
    else bestGitIdx run k

/-- The `([^/]+)/([^/]+)\.git` part of pattern 2, applied after the first
slash.  The characters of `.git` contain no `/`, so the whole of group 2
followed by `.git` lies inside the maximal non-`/` run after the second
slash; greediness picks the largest split index. -/
def pat2Groups (rest : List Char) : Option (List Char × List Char) :=
  let g1 := rest.takeWhile (fun a => !(a == '/'))
  let r1 := rest.dropWhile (fun a => !(a == '/'))
  if g1 = [] then none
  else if r1 = [] then none
  else
    let run := r1.tail.takeWhile (fun a => !(a == '/'))
    match bestGitIdx run (run.length - 4) with
    | some k => some (g1, run.take k)
    | none => none

/-- The slash followed by the groups of pattern 2. -/
def pat2Head : List Char → Option (List Char × List Char)
  | [] => none
  | c :: rest => if c = '/' then pat2Groups rest else none

/-- Match `github\.com/([^/]+)/([^/]+)\.git` at the start of `s`. -/
def matchPat2 (s : List Char) : Option (List Char × List Char) :=
  (stripExact "github.com".data s).bind pat2Head

/-- Leftmost match of pattern 1 over the string (Python `re.search`). -/
def searchPat1 : List Char → Option (List Char × List Char)
  | [] => matchPat1 []
  | c :: rest =>
    match matchPat1 (c :: rest) with
    | some g => some g
    | none => searchPat1 rest

/-- Leftmost match of pattern 2 over the string. -/
def searchPat2 : List Char → Option (List Char × List Char)
  | [] => matchPat2 []
  | c :: rest =>
    match matchPat2 (c :: rest) with
    | some g => some g
    | none => searchPat2 rest

/-- GitHubScanner._parse_repo_url (worker.py lines 169-182): try pattern 1
over the whole URL, then pattern 2; `none` models the raised `ValueError`. -/
def parse_repo_url (url : String) : Option (String × String) :=
  match searchPat1 url.data with
  | some (o, n) => some (String.mk o, String.mk n)
  | none =>
    match searchPat2 url.data with
    | some (o, n) => some (String.mk o, String.mk n)
    | none => none

/-- parse_github_url (api/main.py lines 69-81); the pattern list and loop are
character-identical to the worker's `_parse_repo_url`. -/
def parse_github_url (url : String) : Option (String × String) :=
  match searchPat1 url.data with
  | some (o, n) => some (String.mk o, String.mk n)
  | none =>
    match searchPat2 url.data with
    | some (o, n) => some (String.mk o, String.mk n)
    | none => none

/-! ### Queue store: repositories and scan_queue

Rows of the two tables that the enqueue and status-transition paths touch.
The schema itself is not under src/; column sets follow the INSERT/UPDATE
statements in scheduler.py, api/main.py, queue_worker.py and worker.py, and
the defaults of columns no statement sets follow the spec's data model
(a fresh repository has `scan_status = never`, no timestamps). -/

/-- A row of `repositories` with the columns the embedded statements read or
write. -/
structure RepoRow where
  id : ℕ
  url : String
  owner : String
  name : String
  has_actions : Bool
  scan_status : String
  scan_error : Option String
  last_scanned_at : Option ℕ
deriving DecidableEq

/-- A row of `scan_queue`. -/
structure QueueRow where
  id : ℕ
  repository_id : ℕ
  status : String
  priority : ℤ
  queued_at : ℕ
  started_at : Option ℕ
  completed_at : Option ℕ
  job_name : Option String
  error_message : Option String
deriving DecidableEq

/-- The shared mutable state: both tables plus the next serial ids. -/
structure DB where
  repos : List RepoRow
  queue : List QueueRow
  nextRepoId : ℕ
  nextQueueId : ℕ
deriving DecidableEq

/-- Rows of `scan_queue` for `rid` whose status is `queued` or `processing`
(the predicate of invariant 2). -/
def activeEntries (db : DB) (rid : ℕ) : List QueueRow :=
  db.queue.filter (fun q =>
    q.repository_id == rid && (q.status == "queued" || q.status == "processing"))

/-- Invariant 2: each repository has at most one entry in
`queued`/`processing`. -/
def atMostOneActive (db : DB) : Prop :=
  ∀ rid : ℕ, (activeEntries db rid).length ≤ 1

/-- Repository upsert of api/main.py trigger_scan (lines 100-110):
`INSERT ... ON CONFLICT (owner, name) DO UPDATE SET url = EXCLUDED.url
RETURNING id`; `has_actions` is inserted as TRUE for a new row. -/
def api_upsert_repository (db : DB) (url owner name : String) : DB × ℕ :=
  match db.repos.find? (fun r => r.owner == owner && r.name == name) with
  | some r =>
    ({ db with
        repos := db.repos.map (fun s => if s.id = r.id then { s with url := url } else s) },
      r.id)
  | none =>
    let rid := db.nextRepoId
    ({ db with
        repos := db.repos ++
          [{ id := rid, url := url, owner := owner, name := name,
             has_actions := true, scan_status := "never", scan_error := none,
             last_scanned_at := none }],
        nextRepoId := rid + 1 },
      rid)

/-- Repository upsert of scheduler.py _queue_repository (lines 268-277):
`ON CONFLICT (owner, name) DO UPDATE SET url = EXCLUDED.url,
has_actions = EXCLUDED.has_actions RETURNING id`. -/
def sched_upsert_repository (db : DB) (url owner name : String) (hasActions : Bool) :
    DB × ℕ :=
  match db.repos.find? (fun r => r.owner == owner && r.name == name) with
  | some r =>
    ({ db with
        repos := db.repos.map (fun s =>
          if s.id = r.id then { s with url := url, has_actions := hasActions } else s) },
      r.id)
  | none =>
    let rid := db.nextRepoId
    ({ db with
        repos := db.repos ++
          [{ id := rid, url := url, owner := owner, name := name,
             has_actions := hasActions, scan_status := "never", scan_error := none,
             last_scanned_at := none }],
        nextRepoId := rid + 1 },
      rid)

/-- The database part of api/main.py trigger_scan (lines 98-129): upsert the
repository, then unconditionally insert a scan_queue row with status
`queued`.  Returns the new state, the repository id and the queue id. -/
def trigger_scan_db (db : DB) (repoUrl owner name : String) (priority : ℤ) (now : ℕ) :
    DB × ℕ × ℕ :=
  let res := api_upsert_repository db repoUrl owner name
  let db1 := res.1
  let rid := res.2
  let qid := db1.nextQueueId
  ({ db1 with
      queue := db1.queue ++
        [{ id := qid, repository_id := rid, status := "queued", priority := priority,
           queued_at := now, started_at := none, completed_at := none,
           job_name := none, error_message := none }],
      nextQueueId := qid + 1 },
    rid, qid)

/-- The recent-scan filter of Scheduler._queue_repository (lines 296-300):
the repository was scanned and `(datetime.now() - last_scanned_at).days < 7`
(the difference in whole days, i.e. floor of the seconds quotient). -/
def recently_scanned (db : DB) (rid : ℕ) (now : ℕ) : Bool :=
  match (db.repos.find? (fun r => r.id == rid)).bind (fun r => r.last_scanned_at) with
  | some t => (now - t) / 86400 < 7
  | none => false

/-- The database section of scheduler.py Scheduler._queue_repository
(lines 265-311), entered after the archived/has-actions filters: upsert the
repository; skip (return false) if a `queued`/`processing` entry exists for
it; skip if it was scanned less than 7 days ago (Python `timedelta.days`,
i.e. floor of the difference in whole days); otherwise insert one row with
status `queued`.  The Bool reports whether a row was inserted. -/
def sched_queue_repository (db : DB) (url owner name : String) (hasActions : Bool)
    (priority : ℤ) (now : ℕ) : DB × Bool :=
  let res := sched_upsert_repository db url owner name hasActions
  let db1 := res.1
  let rid := res.2
  if (activeEntries db1 rid).length ≠ 0 then (db1, false)
  else if recently_scanned db1 rid now then (db1, false)
    else
      ({ db1 with
          queue := db1.queue ++
            [{ id := db1.nextQueueId, repository_id := rid, status := "queued",
               priority := priority, queued_at := now, started_at := none,
               completed_at := none, job_name := none, error_message := none }],
          nextQueueId := db1.nextQueueId + 1 },
        true)

/-! ### Queue status transitions -/

/-- Python truthiness of the optional `job_name` argument: `None` and the
empty string are falsy. -/
def jobNameTruthy : Option String → Bool
  | none => false
  | some s => !(s == "")

/-- QueueWorker._update_scan_status (queue_worker.py lines 351-374): an
unconditional UPDATE of the row with the given id.  With status
`processing` and a truthy job name it sets status, `started_at = now` and
`job_name`; with status `failed` it sets status, `completed_at = now` and
the fixed error message; otherwise it sets the status column alone. -/
def update_scan_status (queue : List QueueRow) (scanId : ℕ) (status : String)
    (jobName : Option String) (now : ℕ) : List QueueRow :=
  queue.map (fun q =>
    if q.id = scanId then
      if status = "processing" ∧ jobNameTruthy jobName then
        { q with status := status, started_at := some now, job_name := jobName }
      else if status = "failed" then
        { q with status := status, completed_at := some now,
                 error_message := some "Failed to create job" }
      else { q with status := status }
    else q)

/-- GitHubScanner._update_scan_queue (worker.py lines 215-238): a no-op when
no queue entry was located, otherwise an unconditional UPDATE of the row
with the saved id.  The `processing` branch sets status and
`started_at = now` and never touches `job_name`. -/
def worker_update_scan_queue (queue : List QueueRow) (scanQueueId : Option ℕ)
    (status : String) (error : Option String) (now : ℕ) : List QueueRow :=
  match scanQueueId with
  | none => queue
  | some qid =>
    queue.map (fun q =>
      if q.id = qid then
        if status = "processing" then
          { q with status := status, started_at := some now }
        else if status = "completed" ∨ status = "failed" then
          { q with status := status, completed_at := some now, error_message := error }
        else { q with status := status, error_message := error }
      else q)

/-! ### Dispatcher cycle (QueueWorker.process_queue, queue_worker.py 376-434)

`get_rate_limit_status` is sampled twice in a cycle (once inside
`wait_if_needed`, once inside `calculate_safe_jobs`); the environment records
both samples, the Kubernetes active-job count and the concurrency ceiling.
Job creation against the cluster may succeed (including the 409
already-exists case, which `create_scan_job` also reports as success) or
fail; the oracle `createOk` records which, per entry. -/

/-- Inputs a single dispatcher cycle reads from outside the queue store. -/
structure CycleEnv where
  remaining1 : ℤ
  waitTime1 : ℚ
  remaining2 : ℤ
  activeJobs : ℤ
  maxConcurrent : ℤ

/-- The `ORDER BY sq.priority DESC, sq.queued_at ASC` relation of
`_get_pending_scans`. -/
def pendingOrder (a b : QueueRow) : Prop :=
  b.priority < a.priority ∨ (a.priority = b.priority ∧ a.queued_at ≤ b.queued_at)

instance : DecidableRel pendingOrder := fun a b => by
  unfold pendingOrder
  infer_instance

/-- QueueWorker._get_pending_scans (queue_worker.py lines 337-349): the
`queued` rows ordered by priority descending then queued_at ascending,
limited to `limit`.  (The SQL join to `repositories` only adds url/owner/name
columns; the repository lookup is the `repoInfo` argument of
`process_queue`.) -/
def get_pending_scans (queue : List QueueRow) (limit : ℕ) : List QueueRow :=
  (List.insertionSort pendingOrder (queue.filter (fun q => q.status == "queued"))).take limit

/-- Result of one dispatcher cycle: the updated scan_queue, the number of
cluster jobs successfully created, and the entries claimed from the queue. -/
structure CycleResult where
  queue : List QueueRow
  jobsCreated : ℕ
  claimed : List QueueRow
deriving DecidableEq

/-- QueueWorker.process_queue (queue_worker.py lines 376-434): gate on
`wait_if_needed(500)`; stop if `calculate_safe_jobs(50)` allows no job; take
`min(max_concurrent - running, rate_limit_jobs)` slots and stop if none;
claim that many `queued` entries; for each, create the job named by
`sanitize_job_name` and mark the entry `processing` with that name on
success, or `failed` on failure.  `repoInfo rid = (owner, name)`. -/
def process_queue (env : CycleEnv) (queue : List QueueRow)
    (repoInfo : ℕ → String × String) (createOk : QueueRow → Bool) (now : ℕ) :
    CycleResult :=
  if (wait_if_needed env.remaining1 500 env.waitTime1).proceed = false then
    ⟨queue, 0, []⟩
  else
    let rateLimitJobs := calculate_safe_jobs env.remaining2 50
    if rateLimitJobs ≤ 0 then ⟨queue, 0, []⟩
    else
      let slots := min (env.maxConcurrent - env.activeJobs) rateLimitJobs
      if slots ≤ 0 then ⟨queue, 0, []⟩
      else
        let pending := get_pending_scans queue slots.toNat
        let finalQueue := pending.foldl
          (fun acc scan =>
            if createOk scan then
              update_scan_status acc scan.id "processing"
                (some (sanitize_job_name (repoInfo scan.repository_id).1
                  (repoInfo scan.repository_id).2 scan.id)) now
            else
              update_scan_status acc scan.id "failed" none now)
          queue
        ⟨finalQueue, (pending.filter createOk).length, pending⟩

/-! ### Scan-job ingest (worker.py lines 396-576)

File contents live outside the store; the SHA-256 of the file at a path
(empty string when the file is missing or unreadable, as in
`_calculate_file_hash` and the `os.path.exists` guard) is the oracle
`fileHash`. -/

/-- A row of `safe_files` as consulted by `_is_file_safe`; a `none` hash
matches any content. -/
structure SafeFileRow where
  file_path : String
  file_hash : Option String
deriving DecidableEq

/-- GitHubScanner._is_file_safe (worker.py lines 443-451):
`SELECT id FROM safe_files WHERE file_path = %s AND (file_hash IS NULL OR
file_hash = %s)` has a row. -/
def is_file_safe (safeFiles : List SafeFileRow) (path hash : String) : Bool :=
  safeFiles.any (fun r =>
    r.file_path == path && (r.file_hash == none || r.file_hash == some hash))

/-- One analyzer finding as parsed from octoscan's JSON output (the fields
`_store_vulnerabilities` reads). -/
structure OctoscanVuln where
  filepath : String
  kind : String
  message : String
  line : Option ℤ
  snippet : String
deriving DecidableEq

/-- GitHubScanner._clean_file_path helper: the suffix of the path components
from the first `.github` component onward, if any. -/
def cleanParts : List String → Option (List String)
  | [] => none
  | x :: rest => if x = ".github" then some (x :: rest) else cleanParts rest

/-- GitHubScanner._clean_file_path (worker.py lines 425-441): keep the path
from the `.github` component onward; unchanged when no `.github` component
exists. -/
def clean_file_path (p : String) : String :=
  match cleanParts (p.splitOn "/") with
  | some parts => String.intercalate "/" parts
  | none => p

/-- GitHubScanner._extract_branch_from_path helper: the component before the
first `.github` component at positive index. -/
def branchFromParts : List String → Option String
  | [] => none
  | [_] => none
  | x :: y :: rest => if y = ".github" then some x else branchFromParts (y :: rest)

/-- GitHubScanner._extract_branch_from_path (worker.py lines 408-423);
defaults to `main`. -/
def extract_branch_from_path (p : String) : String :=
  (branchFromParts (p.splitOn "/")).getD "main"

/-- The severity table of GitHubScanner._map_severity (worker.py 537-556). -/
def severity_map : List (String × String) :=
  [("expression-injection", "critical"),
   ("dangerous-checkout", "high"),
   ("dangerous-action", "high"),
   ("dangerous-write", "high"),
   ("repo-jacking", "high"),
   ("unsecure-commands", "high"),
   ("known-vulnerability", "high"),
   ("dangerous-artefact", "medium"),
   ("credentials", "critical"),
   ("runner-label", "medium"),
   ("bot-check", "medium"),
   ("local-action", "low"),
   ("oidc-action", "info"),
   ("shellcheck", "low")]

/-- GitHubScanner._map_severity: table lookup with default `medium`. -/
def map_severity (kind : String) : String :=
  ((severity_map.find? (fun p => p.1 == kind)).map Prod.snd).getD "medium"

/-- The recommendation table of GitHubScanner._get_recommendation
(worker.py 558-576). -/
def recommendation_map : List (String × String) :=
  [("expression-injection", "Sanitize untrusted input before use in expressions. Use intermediate environment variables."),
   ("dangerous-checkout", "Avoid checking out untrusted code in privileged contexts like workflow_run or pull_request_target."),
   ("dangerous-action", "Treat artifact data as untrusted. Validate and sanitize before use."),
   ("dangerous-write", "Sanitize inputs before writing to GITHUB_ENV or GITHUB_OUTPUT to prevent command injection."),
   ("repo-jacking", "Verify that referenced GitHub actions point to valid organizations/users."),
   ("unsecure-commands", "Remove ACTIONS_ALLOW_UNSECURE_COMMANDS environment variable."),
   ("known-vulnerability", "Update the action to a patched version."),
   ("dangerous-artefact", "Avoid uploading sensitive files like .git/config in artifacts."),
   ("credentials", "Avoid hardcoding credentials. Use GitHub secrets instead."),
   ("runner-label", "Use ephemeral self-hosted runners or GitHub-hosted runners for untrusted code."),
   ("bot-check", "Use more robust checks than github.actor for bot identity verification."),
   ("local-action", "Review local action for potential vulnerabilities."),
   ("oidc-action", "Review OIDC action for proper security configuration."),
   ("shellcheck", "Fix shell script issues identified by shellcheck.")]

/-- GitHubScanner._get_recommendation: table lookup with a generic default. -/
def get_recommendation (kind : String) : String :=
  ((recommendation_map.find? (fun p => p.1 == kind)).map Prod.snd).getD
    "Review and fix the identified security issue."

/-- Title derivation in `_store_vulnerabilities`: `message[:512]` when the
message is longer than 512 characters. -/
def titleOf (message : String) : String :=
  if 512 < message.length then String.mk (message.data.take 512) else message

/-- `os.path.join(workflows_dir, raw)` guarded by `os.path.isabs`. -/
def join_if_rel (dir p : String) : String :=
  if p.startsWith "/" then p else dir ++ "/" ++ p

/-- A `vulnerabilities` row as inserted by `_store_vulnerabilities`
(worker.py lines 504-526).  The branch is identified by its name (the insert
upserts a `branches` row for the extracted name and uses its id). -/
structure Finding where
  repository_id : ℕ
  branch_name : String
  file_path : String
  file_hash : String
  vulnerability_type : String
  severity : String
  title : String
  description : String
  line_number : Option ℤ
  code_snippet : String
  recommendation : String
deriving DecidableEq

/-- The body of the per-finding loop of `_store_vulnerabilities`: hash the
file, clean the path, skip the finding (counting it) when `is_file_safe`
holds of the cleaned path and hash, otherwise insert a row. -/
def ingest_step (repositoryId : ℕ) (safeFiles : List SafeFileRow)
    (fileHash : String → String) (workflowsDir : String)
    (acc : List Finding × ℕ) (v : OctoscanVuln) : List Finding × ℕ :=
  let hash := fileHash (join_if_rel workflowsDir v.filepath)
  let cleanPath := clean_file_path v.filepath
  if is_file_safe safeFiles cleanPath hash then (acc.1, acc.2 + 1)
  else
    (acc.1 ++
      [{ repository_id := repositoryId,
         branch_name := extract_branch_from_path v.filepath,
         file_path := cleanPath,
         file_hash := hash,
         vulnerability_type := v.kind,
         severity := map_severity v.kind,
         title := titleOf v.message,
         description := v.message,
         line_number := v.line,
         code_snippet := v.snippet,
         recommendation := get_recommendation v.kind }],
     acc.2)

/-- GitHubScanner._store_vulnerabilities (worker.py lines 453-535): run the
per-finding loop over the analyzer output.  Returns the inserted rows in
order and the skipped-as-safe counter. -/
def store_vulnerabilities (repositoryId : ℕ) (safeFiles : List SafeFileRow)
    (fileHash : String → String) (workflowsDir : String)
    (vulns : List OctoscanVuln) : List Finding × ℕ :=
  vulns.foldl (ingest_step repositoryId safeFiles fileHash workflowsDir) ([], 0)

/-! ### Deduplicated-vulnerabilities view (api/main.py list_vulnerabilities,
lines 283-340)

The SELECT groups the `vulnerabilities` rows (joined to `repositories` and
LEFT-joined to `branches`) and orders the groups.  Rows are modelled with the
columns that determine grouping, branch aggregation and ordering; the
remaining selected columns are MIN-aggregates of payload columns
(description, snippet, ...) that affect none of the three and are omitted.
Pagination (LIMIT/OFFSET) is applied after the ordering and is not part of
the claim. -/

/-- A stored `vulnerabilities` row as read by the view, with its LEFT-joined
branch columns (`none` when the row has no branch). -/
structure VulnRow where
  id : ℕ
  repository_id : ℕ
  file_path : String
  file_hash : String
  vulnerability_type : String
  severity : String
  title : String
  line_number : Option ℤ
  detected_at : ℕ
  branch_id : Option ℕ
  branch_name : Option String
deriving DecidableEq

/-- The GROUP BY key of the view: `v.repository_id, r.owner, r.name, r.url,
v.file_path, v.file_hash, v.vulnerability_type, v.severity, v.title,
v.line_number`. -/
structure DedupKey where
  repository_id : ℕ
  repo_owner : String
  repo_name : String
  repo_url : String
  file_path : String
  file_hash : String
  vulnerability_type : String
  severity : String
  title : String
  line_number : Option ℤ
deriving DecidableEq

/-- The key of a row; `repoInfo rid = (owner, name, url)` is the joined
`repositories` row (unique per id by invariant 1). -/
def rowKey (repoInfo : ℕ → String × String × String) (v : VulnRow) : DedupKey :=
  { repository_id := v.repository_id,
    repo_owner := (repoInfo v.repository_id).1,
    repo_name := (repoInfo v.repository_id).2.1,
    repo_url := (repoInfo v.repository_id).2.2,
    file_path := v.file_path,
    file_hash := v.file_hash,
    vulnerability_type := v.vulnerability_type,
    severity := v.severity,
    title := v.title,
    line_number := v.line_number }

/-- The key the spec text names: exactly `(repository_id, file_path,
file_hash, vulnerability_type, line_number)`.  Stated from the spec's words
for comparison with the view's actual GROUP BY key. -/
def specKey5 (v : VulnRow) : ℕ × String × String × String × Option ℤ :=
  (v.repository_id, v.file_path, v.file_hash, v.vulnerability_type, v.line_number)

/-- Distinct elements of a list, keeping first occurrences in order. -/
def distinctList {α : Type} [DecidableEq α] : List α → List α
  | [] => []
  | x :: rest => x :: (distinctList rest).filter (fun y => y ≠ x)

/-- Minimum of a list of naturals (`MIN` aggregate; groups are nonempty). -/
def minNat : List ℕ → ℕ
  | [] => 0
  | x :: xs => xs.foldl min x

/-- One output row of the view: the group key, `MIN(v.id)`,
`ARRAY_AGG(DISTINCT b.name) FILTER (WHERE b.name IS NOT NULL)`,
`COUNT(DISTINCT b.id)` and `MIN(v.detected_at)` (the ordering column). -/
structure DedupOut where
  key : DedupKey
  min_id : ℕ
  branches : List String
  branch_count : ℕ
  min_detected_at : ℕ
deriving DecidableEq

/-- Aggregate one group of rows. -/
def aggregateGroup (k : DedupKey) (group : List VulnRow) : DedupOut :=
  { key := k,
    min_id := minNat (group.map (fun v => v.id)),
    branches := distinctList (group.filterMap (fun v => v.branch_name)),
    branch_count := (distinctList (group.filterMap (fun v => v.branch_id))).length,
    min_detected_at := minNat (group.map (fun v => v.detected_at)) }

/-- The `CASE v.severity ... END` sort key of the view. -/
def severityRank (s : String) : ℕ :=
  if s = "critical" then 1
  else if s = "high" then 2
  else if s = "medium" then 3
  else if s = "low" then 4
  else 5

/-- The ORDER BY relation: severity rank ascending, then `MIN(detected_at)`
descending. -/
def viewOrder (a b : DedupOut) : Prop :=
  severityRank a.key.severity < severityRank b.key.severity ∨
    (severityRank a.key.severity = severityRank b.key.severity ∧
      b.min_detected_at ≤ a.min_detected_at)

instance : DecidableRel viewOrder := fun a b => by
  unfold viewOrder
  infer_instance

/-- The deduplicated view of api/main.py list_vulnerabilities (lines
283-340): group the rows by their GROUP BY key, aggregate each group, and
sort by severity rank then detected_at descending. -/
def list_vulnerabilities_view (repoInfo : ℕ → String × String × String)
    (rows : List VulnRow) : List DedupOut :=
  let keys := distinctList (rows.map (rowKey repoInfo))
  List.insertionSort viewOrder
    (keys.map (fun k => aggregateGroup k (rows.filter (fun v => rowKey repoInfo v == k))))

/-! ### Spec-side definitions used for comparison -/

/-- The job-name derivation as the spec words it: `scan-OWNER-NAME-ID`
lowercased, every character outside `[a-z0-9-]` replaced by `-`, runs of `-`
collapsed to one, the result truncated to 63 characters, leading and
trailing `-` stripped.  Stated from the spec's words, to be compared with
the code's sanitizer. -/
def derive_job_name_spec (owner name : String) (queueId : ℕ) : String :=
  let lowered := ("scan-" ++ owner ++ "-" ++ name ++ "-" ++ toString queueId).data.map
    Char.toLower
  String.mk (stripDashes ((collapseDashes (lowered.map sanitizeChar)).take 63))

instance : IsTotal DedupOut viewOrder := by
  constructor
  intro a b
  unfold viewOrder
  rcases lt_trichotomy (severityRank a.key.severity) (severityRank b.key.severity) with h | h | h
  · exact Or.inl (Or.inl h)
  · rcases le_total b.min_detected_at a.min_detected_at with hd | hd
    · exact Or.inl (Or.inr ⟨h, hd⟩)
    · exact Or.inr (Or.inr ⟨h.symm, hd⟩)
  · exact Or.inr (Or.inl h)

instance : IsTrans DedupOut viewOrder := by
  constructor
  intro a b c hab hbc
  unfold viewOrder at hab hbc ⊢
  rcases hab with h1 | ⟨h1, d1⟩
  · rcases hbc with h2 | ⟨h2, _⟩
    · exact Or.inl (h1.trans h2)
    · exact Or.inl (h2 ▸ h1)
  · rcases hbc with h2 | ⟨h2, d2⟩
    · exact Or.inl (h1 ▸ h2)
    · exact Or.inr ⟨h1.trans h2, d2.trans d1⟩

/-! ## Theorems

Shared helper lemmas come first; the claim theorems follow, one per claim,
each preceded by a doc comment naming the claim. -/

theorem takeWhile_all_append {p : Char → Bool} {l1 : List Char} (l2 : List Char)
    (h : ∀ a ∈ l1, p a = true) :
    (l1 ++ l2).takeWhile p = l1 ++ l2.takeWhile p := by
  induction l1 with
  | nil => simp
  | cons x xs ih =>
    have hx := h x (by simp)
    simp only [List.cons_append, List.takeWhile_cons, hx, if_true]
    rw [ih (fun a ha => h a (by simp [ha]))]

theorem dropWhile_all_append {p : Char → Bool} {l1 : List Char} (l2 : List Char)
    (h : ∀ a ∈ l1, p a = true) :
    (l1 ++ l2).dropWhile p = l2.dropWhile p := by
  induction l1 with
  | nil => simp
  | cons x xs ih =>
    have hx := h x (by simp)
    simp only [List.cons_append, List.dropWhile_cons, hx, if_true]
    exact ih (fun a ha => h a (by simp [ha]))

/-- C10: when the sampled `remaining` is below the threshold but the reported
reset time is not in the future (`reset_at - now ≤ 0`), `wait_if_needed`
returns proceed immediately and does not sleep — neither of the spec's two
stated branches applies. -/
theorem wait_if_needed_nonpositive_reset_proceeds (remaining minRemaining : ℤ)
    (waitTime : ℚ) (hrem : remaining < minRemaining) (hwait : waitTime ≤ 0) :
    wait_if_needed remaining minRemaining waitTime = ⟨true, none⟩ := by
  have h1 : ¬ (0 < waitTime ∧ waitTime ≤ 900) := by
    rintro ⟨h, _⟩
    linarith
  have h2 : ¬ (900 < waitTime) := by linarith
  simp [wait_if_needed, hrem, h1, h2]

theorem wait_if_needed_nonpositive_reset_proceeds_witness :
    wait_if_needed 400 500 0 = ⟨true, none⟩ :=
  wait_if_needed_nonpositive_reset_proceeds 400 500 0 (by norm_num) (by norm_num)

/-- C4 counterexample: with `remaining = 400 < 500 = min_remaining` and
`reset_at - now = 0` (which is "at most 900 seconds"), the code does not
sleep the claimed `0 + 5` seconds: it proceeds without sleeping. -/
theorem wait_if_needed_zero_wait_does_not_sleep :
    wait_if_needed 400 500 0 = ⟨true, none⟩ ∧
    wait_if_needed 400 500 0 ≠ ⟨true, some (0 + 5)⟩ := by
  constructor
  · norm_num [wait_if_needed]
  · norm_num [wait_if_needed, WaitResult.mk.injEq]
    exact fun h => Option.noConfusion h

/-- C4 amended: `wait_if_needed` proceeds immediately when
`remaining ≥ min_remaining`; when `remaining < min_remaining` it sleeps
`wait + 5` seconds and proceeds only if the time to reset is positive and at
most 900 seconds, returns skip-cycle without sleeping when it exceeds 900
seconds, and proceeds without sleeping when it is not positive. -/
theorem wait_if_needed_branches (remaining minRemaining : ℤ) (waitTime : ℚ) :
    (minRemaining ≤ remaining →
      wait_if_needed remaining minRemaining waitTime = ⟨true, none⟩) ∧
    (remaining < minRemaining →
      ((0 < waitTime ∧ waitTime ≤ 900) →
        wait_if_needed remaining minRemaining waitTime = ⟨true, some (waitTime + 5)⟩) ∧
      (900 < waitTime →
        wait_if_needed remaining minRemaining waitTime = ⟨false, none⟩) ∧
      (waitTime ≤ 0 →
        wait_if_needed remaining minRemaining waitTime = ⟨true, none⟩)) := by
  refine ⟨fun hge => ?_, fun hlt => ⟨fun hw => ?_, fun hw => ?_, fun hw => ?_⟩⟩
  · simp [wait_if_needed, not_lt.mpr hge]
  · simp [wait_if_needed, hlt, hw]
  · have h1 : ¬ (0 < waitTime ∧ waitTime ≤ 900) := by
      rintro ⟨_, h⟩
      linarith
    simp [wait_if_needed, hlt, h1, hw]
  · have h1 : ¬ (0 < waitTime ∧ waitTime ≤ 900) := by
      rintro ⟨h, _⟩
      linarith
    have h2 : ¬ (900 < waitTime) := by linarith
    simp [wait_if_needed, hlt, h1, h2]

theorem wait_if_needed_branches_witness :
    (400 : ℤ) < 500 ∧ ((0 : ℚ) < 60 ∧ (60 : ℚ) ≤ 900) ∧
      wait_if_needed 400 500 60 = ⟨true, some (60 + 5)⟩ :=
  ⟨by norm_num, ⟨by norm_num, by norm_num⟩,
    ((wait_if_needed_branches 400 500 60).2 (by norm_num)).1 ⟨by norm_num, by norm_num⟩⟩

theorem dropWhile_length_le {α : Type} (p : α → Bool) (l : List α) :
    (l.dropWhile p).length ≤ l.length := by
  induction l with
  | nil => simp
  | cons x xs ih =>
    rw [List.dropWhile_cons]
    by_cases h : p x = true
    · rw [if_pos h]
      exact le_trans ih (Nat.le_succ _)
    · rw [if_neg h]

theorem process_queue_created_le (env : CycleEnv) (queue : List QueueRow)
    (repoInfo : ℕ → String × String) (createOk : QueueRow → Bool) (now : ℕ) :
    (process_queue env queue repoInfo createOk now).jobsCreated ≤
      (min (env.maxConcurrent - env.activeJobs)
        (calculate_safe_jobs env.remaining2 50)).toNat := by
  simp only [process_queue]
  by_cases hgate : (wait_if_needed env.remaining1 500 env.waitTime1).proceed = false
  · rw [if_pos hgate]
    exact Nat.zero_le _
  · rw [if_neg hgate]
    by_cases hrlj : calculate_safe_jobs env.remaining2 50 ≤ 0
    · rw [if_pos hrlj]
      exact Nat.zero_le _
    · rw [if_neg hrlj]
      by_cases hslots : min (env.maxConcurrent - env.activeJobs)
          (calculate_safe_jobs env.remaining2 50) ≤ 0
      · rw [if_pos hslots]
        exact Nat.zero_le _
      · rw [if_neg hslots]
        exact le_trans (List.length_filter_le _ _) (List.length_take_le _ _)

theorem process_queue_of_nonpos (env : CycleEnv) (queue : List QueueRow)
    (repoInfo : ℕ → String × String) (createOk : QueueRow → Bool) (now : ℕ)
    (h : min (env.maxConcurrent - env.activeJobs)
      (calculate_safe_jobs env.remaining2 50) ≤ 0) :
    process_queue env queue repoInfo createOk now = ⟨queue, 0, []⟩ := by
  simp only [process_queue]
  by_cases hgate : (wait_if_needed env.remaining1 500 env.waitTime1).proceed = false
  · rw [if_pos hgate]
  · rw [if_neg hgate]
    by_cases hrlj : calculate_safe_jobs env.remaining2 50 ≤ 0
    · rw [if_pos hrlj]
    · rw [if_neg hrlj]
      rw [if_pos h]

/-- C3: `calculate_safe_jobs` is `max(0, remaining - 500)` floor-divided by
`requests_per_job` (1300 remaining gives 16 at 50 per job); in one dispatcher
cycle the number of cluster jobs created is at most
`min(max_concurrent - active, calculate_safe_jobs(50))` when that minimum is
positive, and when it is ≤ 0 no job is created and no entry is claimed
(max_concurrent 10 with 7 active and ample budget yields 3 jobs). -/
theorem process_queue_admission_bound (env : CycleEnv) (queue : List QueueRow)
    (repoInfo : ℕ → String × String) (createOk : QueueRow → Bool) (now : ℕ) :
    (∀ r p : ℤ, calculate_safe_jobs r p = max 0 (r - 500) / p) ∧
    calculate_safe_jobs 1300 50 = 16 ∧
    (0 < min (env.maxConcurrent - env.activeJobs) (calculate_safe_jobs env.remaining2 50) →
      ((process_queue env queue repoInfo createOk now).jobsCreated : ℤ) ≤
        min (env.maxConcurrent - env.activeJobs) (calculate_safe_jobs env.remaining2 50)) ∧
    (min (env.maxConcurrent - env.activeJobs) (calculate_safe_jobs env.remaining2 50) ≤ 0 →
      (process_queue env queue repoInfo createOk now).jobsCreated = 0 ∧
      (process_queue env queue repoInfo createOk now).claimed = []) ∧
    (process_queue ⟨5000, 0, 5000, 7, 10⟩
      [⟨1, 1, "queued", 0, 1, none, none, none, none⟩,
       ⟨2, 2, "queued", 0, 2, none, none, none, none⟩,
       ⟨3, 3, "queued", 0, 3, none, none, none, none⟩,
       ⟨4, 4, "queued", 0, 4, none, none, none, none⟩,
       ⟨5, 5, "queued", 0, 5, none, none, none, none⟩]
      (fun _ => ("o", "n")) (fun _ => true) 0).jobsCreated = 3 := by
  refine ⟨fun _ _ => rfl, by decide, fun hpos => ?_, fun hle => ?_, by decide⟩
  · calc
      ((process_queue env queue repoInfo createOk now).jobsCreated : ℤ) ≤
          ((min (env.maxConcurrent - env.activeJobs)
            (calculate_safe_jobs env.remaining2 50)).toNat : ℤ) := by
        exact_mod_cast process_queue_created_le env queue repoInfo createOk now
      _ = min (env.maxConcurrent - env.activeJobs)
            (calculate_safe_jobs env.remaining2 50) :=
        Int.toNat_of_nonneg hpos.le
  · rw [process_queue_of_nonpos env queue repoInfo createOk now hle]
    exact ⟨rfl, rfl⟩

theorem process_queue_admission_bound_witness :
    (0 : ℤ) < min ((10 : ℤ) - 7) (calculate_safe_jobs 5000 50) ∧
    ((process_queue ⟨5000, 0, 5000, 7, 10⟩
        [⟨1, 1, "queued", 0, 1, none, none, none, none⟩]
        (fun _ => ("o", "n")) (fun _ => true) 0).jobsCreated : ℤ) ≤
      min ((10 : ℤ) - 7) (calculate_safe_jobs 5000 50) :=
  ⟨by decide,
    (process_queue_admission_bound ⟨5000, 0, 5000, 7, 10⟩
        [⟨1, 1, "queued", 0, 1, none, none, none, none⟩]
        (fun _ => ("o", "n")) (fun _ => true) 0).2.2.1 (by decide)⟩

/-- C5: the derived cluster job name is `scan-OWNER-NAME-ID` lowercased with
every character outside `[a-z0-9-]` replaced by `-`, dash runs collapsed,
truncated to 63 characters and stripped of outer dashes (exactly the
spec-worded pipeline); `derive_job_name("AcmeCo", "My_Repo.Tool", 42)` is
`scan-acmeco-my-repo-tool-42`; the api copy computes the same name; the
function is deterministic; the result never exceeds 63 characters. -/
theorem sanitize_job_name_contract :
    sanitize_job_name "AcmeCo" "My_Repo.Tool" 42 = "scan-acmeco-my-repo-tool-42" ∧
    (∀ o n i, sanitize_job_name o n i = derive_job_name_spec o n i) ∧
    (∀ o n i, sanitize_job_name_api o n i = sanitize_job_name o n i) ∧
    (∀ o1 o2 n1 n2 i1 i2, o1 = o2 → n1 = n2 → i1 = i2 →
      sanitize_job_name o1 n1 i1 = sanitize_job_name o2 n2 i2) ∧
    (∀ o n i, (sanitize_job_name o n i).length ≤ 63) := by
  refine ⟨by decide, fun _ _ _ => rfl, fun _ _ _ => rfl, ?_, ?_⟩
  · intro o1 o2 n1 n2 i1 i2 h1 h2 h3
    rw [h1, h2, h3]
  · intro o n i
    unfold sanitize_job_name
    show (stripDashes ((collapseDashes _).take 63)).length ≤ 63
    unfold stripDashes
    calc
      (((((collapseDashes _).take 63).dropWhile _).reverse.dropWhile _).reverse).length =
          ((((collapseDashes _).take 63).dropWhile _).reverse.dropWhile _).length := by
        rw [List.length_reverse]
      _ ≤ (((collapseDashes _).take 63).dropWhile _).reverse.length :=
        dropWhile_length_le _ _
      _ = (((collapseDashes _).take 63).dropWhile _).length := List.length_reverse _
      _ ≤ ((collapseDashes _).take 63).length := dropWhile_length_le _ _
      _ ≤ 63 := List.length_take_le _ _

theorem sanitize_job_name_contract_witness :
    "AcmeCo" = "AcmeCo" ∧
    sanitize_job_name "AcmeCo" "My_Repo.Tool" 42 = sanitize_job_name "AcmeCo" "My_Repo.Tool" 42 :=
  ⟨rfl, sanitize_job_name_contract.2.2.2.1 "AcmeCo" "AcmeCo" "My_Repo.Tool" "My_Repo.Tool"
    42 42 rfl rfl rfl⟩

theorem stripExact_append (lit r : List Char) : stripExact lit (lit ++ r) = some r := by
  induction lit with
  | nil => rfl
  | cons c cs ih => simp [stripExact, ih]

theorem stripExact_ne_head {c d : Char} {cs ds : List Char} (h : c ≠ d) :
    stripExact (c :: cs) (d :: ds) = none := by
  simp [stripExact, h]

theorem matchPat1_cons_ne {c : Char} {s : List Char} (h : c ≠ 'g') :
    matchPat1 (c :: s) = none := by
  unfold matchPat1
  have hd : "github.com".data = 'g' :: "ithub.com".data := rfl
  rw [hd, stripExact_ne_head (Ne.symm h)]
  rfl

theorem searchPat1_cons_ne {c : Char} {s : List Char} (h : c ≠ 'g') :
    searchPat1 (c :: s) = searchPat1 s := by
  simp only [searchPat1, matchPat1_cons_ne h]

theorem takeWhile_cons_false {α : Type} (p : α → Bool) (a : α) (l : List α)
    (h : p a = false) : (a :: l).takeWhile p = [] := by
  simp [List.takeWhile_cons, h]

theorem dropWhile_cons_false {α : Type} (p : α → Bool) (a : α) (l : List α)
    (h : p a = false) : (a :: l).dropWhile p = a :: l := by
  simp [List.dropWhile_cons, h]

theorem matchPat1_of_strip {s r : List Char}
    (h : stripExact "github.com".data s = some r) :
    matchPat1 s = pat1Head r := by
  unfold matchPat1
  rw [h]
  rfl

theorem pat1Groups_split (owner n1 n2 : List Char) (h1 : owner ≠ [])
    (h2 : ∀ a ∈ owner, a ≠ '/') (h3 : n1 ≠ []) (h4 : ∀ a ∈ n1, a ≠ '/')
    (h5 : ∀ a ∈ n1, a ≠ '.') :
    pat1Groups (owner ++ '/' :: (n1 ++ '.' :: n2)) = some (owner, n1) := by
  have howner : ∀ a ∈ owner, (fun a => !(a == '/')) a = true := by
    intro a ha
    simpa using h2 a ha
  have hn1 : ∀ a ∈ n1, (fun a => !(a == '/' || a == '.')) a = true := by
    intro a ha
    simp [h4 a ha, h5 a ha]
  simp only [pat1Groups]
  rw [takeWhile_all_append _ howner, dropWhile_all_append _ howner,
    takeWhile_cons_false (fun a => !(a == '/')) '/' (n1 ++ '.' :: n2) (by decide),
    dropWhile_cons_false (fun a => !(a == '/')) '/' (n1 ++ '.' :: n2) (by decide),
    List.append_nil]
  simp only [List.tail_cons]
  rw [takeWhile_all_append _ hn1,
    takeWhile_cons_false (fun a => !(a == '/' || a == '.')) '.' n2 (by decide),
    List.append_nil]
  rw [if_neg h1, if_neg (by simp : ¬ (('/' :: (n1 ++ '.' :: n2) : List Char) = [])),
    if_neg h3]

/-- C9: the first URL pattern is tried first and its name group excludes
dots, so the repository name is truncated at its first dot for every URL of
the shape `https://github.com/OWNER/N1.N2` (owner nonempty without `/`, `N1`
nonempty without `/` or `.`): parsing yields `(OWNER, N1)`.  In particular a
`.git` suffix is stripped, a genuinely dotted name is truncated, and the API
copy `parse_github_url` is the same function as the worker's
`_parse_repo_url`. -/
theorem parse_repo_url_dotted_name (owner n1 n2 : List Char) (h1 : owner ≠ [])
    (h2 : '/' ∉ owner) (h3 : n1 ≠ []) (h4 : '/' ∉ n1) (h5 : '.' ∉ n1) :
    parse_repo_url (String.mk
        ("https://github.com/".data ++ (owner ++ '/' :: (n1 ++ '.' :: n2)))) =
      some (String.mk owner, String.mk n1) ∧
    parse_repo_url "https://github.com/acme/tool.git" = some ("acme", "tool") ∧
    parse_repo_url "https://github.com/acme/my.repo" = some ("acme", "my") ∧
    (∀ url, parse_github_url url = parse_repo_url url) := by
  refine ⟨?_, by decide, by decide, fun _ => rfl⟩
  have hm : matchPat1 ('g' :: ("ithub.com".data ++
      ('/' :: (owner ++ '/' :: (n1 ++ '.' :: n2))))) = some (owner, n1) := by
    have hstrip : stripExact "github.com".data ('g' :: ("ithub.com".data ++
        ('/' :: (owner ++ '/' :: (n1 ++ '.' :: n2))))) =
        some ('/' :: (owner ++ '/' :: (n1 ++ '.' :: n2))) :=
      stripExact_append "github.com".data ('/' :: (owner ++ '/' :: (n1 ++ '.' :: n2)))
    rw [matchPat1_of_strip hstrip]
    show (if ('/' : Char) = ':' ∨ ('/' : Char) = '/' then
      pat1Groups (owner ++ '/' :: (n1 ++ '.' :: n2)) else none) = some (owner, n1)
    rw [if_pos (Or.inr rfl)]
    exact pat1Groups_split owner n1 n2 h1 (fun a ha he => h2 (he ▸ ha)) h3
      (fun a ha he => h4 (he ▸ ha)) (fun a ha he => h5 (he ▸ ha))
  have hsearch : searchPat1 ('h' :: 't' :: 't' :: 'p' :: 's' :: ':' :: '/' :: '/' ::
      'g' :: ("ithub.com".data ++ ('/' :: (owner ++ '/' :: (n1 ++ '.' :: n2))))) =
      some (owner, n1) := by
    rw [searchPat1_cons_ne (by decide), searchPat1_cons_ne (by decide),
      searchPat1_cons_ne (by decide), searchPat1_cons_ne (by decide),
      searchPat1_cons_ne (by decide), searchPat1_cons_ne (by decide),
      searchPat1_cons_ne (by decide), searchPat1_cons_ne (by decide)]
    simp only [searchPat1, hm]
  show (match searchPat1 ('h' :: 't' :: 't' :: 'p' :: 's' :: ':' :: '/' :: '/' ::
      'g' :: ("ithub.com".data ++ ('/' :: (owner ++ '/' :: (n1 ++ '.' :: n2))))) with
    | some (o, n) => some (String.mk o, String.mk n)
    | none =>
      match searchPat2 ('h' :: 't' :: 't' :: 'p' :: 's' :: ':' :: '/' :: '/' ::
          'g' :: ("ithub.com".data ++ ('/' :: (owner ++ '/' :: (n1 ++ '.' :: n2))))) with
      | some (o, n) => some (String.mk o, String.mk n)
      | none => none) = some (String.mk owner, String.mk n1)
  rw [hsearch]

theorem parse_repo_url_dotted_name_witness :
    parse_repo_url (String.mk ("https://github.com/".data ++
        ("acme".data ++ '/' :: ("my".data ++ '.' :: "repo".data)))) =
      some (String.mk "acme".data, String.mk "my".data) :=
  (parse_repo_url_dotted_name "acme".data "my".data "repo".data (by decide)
    (by decide) (by decide) (by decide) (by decide)).1

/-- C2 counterexample: `mark_processing` does not fail on a terminal entry —
the dispatcher's UPDATE is unconditional, so a `completed` entry is moved
back to `processing` with a fresh `started_at` and the new job name; and on
an entry already `processing` with the same job identity the call is not a
no-op: it refreshes `started_at`. -/
theorem update_scan_status_overwrites_terminal :
    update_scan_status [⟨1, 1, "completed", 0, 0, some 10, some 20, some "job-a", none⟩]
        1 "processing" (some "job-b") 30 =
      [⟨1, 1, "processing", 0, 0, some 30, some 20, some "job-b", none⟩] ∧
    update_scan_status [⟨1, 1, "processing", 0, 0, some 10, none, some "job-a", none⟩]
        1 "processing" (some "job-a") 30 =
      [⟨1, 1, "processing", 0, 0, some 30, none, some "job-a", none⟩] := by
  constructor
  · decide
  · decide

/-- C2 amended: both `mark_processing` paths are unconditional single-row
UPDATEs that never fail: the dispatcher's `_update_scan_status` sets status
`processing`, `started_at = now` and the job name on every row with the given
id regardless of its previous status (terminal rows included), the scan
job's `_update_scan_queue` does the same without recording any job identity,
and rows with other ids are untouched. -/
theorem mark_processing_unconditional (queue : List QueueRow) (scanId : ℕ)
    (j : String) (now : ℕ) (hj : j ≠ "") :
    (∀ q ∈ queue, q.id = scanId →
      { q with status := "processing", started_at := some now, job_name := some j } ∈
        update_scan_status queue scanId "processing" (some j) now) ∧
    (∀ q ∈ queue, q.id ≠ scanId →
      q ∈ update_scan_status queue scanId "processing" (some j) now) ∧
    (∀ q ∈ queue, q.id = scanId →
      { q with status := "processing", started_at := some now } ∈
        worker_update_scan_queue queue (some scanId) "processing" none now) ∧
    worker_update_scan_queue queue none "processing" none now = queue := by
  refine ⟨fun q hq hid => ?_, fun q hq hid => ?_, fun q hq hid => ?_, rfl⟩
  · refine List.mem_map.mpr ⟨q, hq, ?_⟩
    simp [update_scan_status, hid, jobNameTruthy, hj]
  · refine List.mem_map.mpr ⟨q, hq, ?_⟩
    simp [hid]
  · refine List.mem_map.mpr ⟨q, hq, ?_⟩
    simp [hid]

theorem mark_processing_unconditional_witness :
    ("job-x" : String) ≠ "" ∧
    (⟨1, 1, "processing", 0, 0, some 5, none, some "job-x", none⟩ : QueueRow) ∈
      update_scan_status [⟨1, 1, "queued", 0, 0, none, none, none, none⟩]
        1 "processing" (some "job-x") 5 :=
  ⟨by decide,
    (mark_processing_unconditional [⟨1, 1, "queued", 0, 0, none, none, none, none⟩]
        1 "job-x" 5 (by decide)).1
      ⟨1, 1, "queued", 0, 0, none, none, none, none⟩ (by simp) rfl⟩

/-- C8 counterexample: the scheduler's repository upsert does not replace
`url` only — on conflict it also overwrites `has_actions`: an existing row
with `has_actions = false` ends up with `has_actions = true` (the id stays
stable). -/
theorem sched_upsert_replaces_has_actions :
    ((sched_upsert_repository
        ⟨[⟨1, "u", "o", "n", false, "completed", none, some 5⟩], [], 2, 1⟩
        "u2" "o" "n" true).1.repos.map (fun r => r.has_actions)) = [true] ∧
    ([⟨1, "u", "o", "n", false, "completed", none, some 5⟩] :
      List RepoRow).map (fun r => r.has_actions) = [false] ∧
    (sched_upsert_repository
        ⟨[⟨1, "u", "o", "n", false, "completed", none, some 5⟩], [], 2, 1⟩
        "u2" "o" "n" true).2 = 1 := by
  refine ⟨?_, ?_, ?_⟩ <;> decide

/-- C8 amended: on an `(owner, name)` conflict the API upsert replaces `url`
and nothing else (id, owner, name, has_actions, scan_status, scan_error and
last_scanned_at are all preserved) and returns the existing row's id; the
scheduler upsert behaves the same except that it also replaces
`has_actions`.  Neither touches the scan_queue table. -/
theorem upsert_repository_conflict_frame (db : DB) (u o n : String) (ha : Bool)
    (r0 : RepoRow)
    (hfind : db.repos.find? (fun r => r.owner == o && r.name == n) = some r0) :
    (api_upsert_repository db u o n).2 = r0.id ∧
    (sched_upsert_repository db u o n ha).2 = r0.id ∧
    (∀ s ∈ db.repos,
      { s with url := if s.id = r0.id then u else s.url } ∈
        (api_upsert_repository db u o n).1.repos) ∧
    (∀ s ∈ db.repos,
      { s with url := if s.id = r0.id then u else s.url,
               has_actions := if s.id = r0.id then ha else s.has_actions } ∈
        (sched_upsert_repository db u o n ha).1.repos) ∧
    (api_upsert_repository db u o n).1.queue = db.queue ∧
    (sched_upsert_repository db u o n ha).1.queue = db.queue := by
  have hapi : api_upsert_repository db u o n =
      ({ db with repos := db.repos.map fun s =>
          if s.id = r0.id then { s with url := u } else s }, r0.id) := by
    unfold api_upsert_repository
    rw [hfind]
  have hsched : sched_upsert_repository db u o n ha =
      ({ db with repos := db.repos.map fun s =>
          if s.id = r0.id then { s with url := u, has_actions := ha } else s },
        r0.id) := by
    unfold sched_upsert_repository
    rw [hfind]
  rw [hapi, hsched]
  refine ⟨rfl, rfl, fun s hs => ?_, fun s hs => ?_, rfl, rfl⟩
  · refine List.mem_map.mpr ⟨s, hs, ?_⟩
    by_cases h : s.id = r0.id <;> simp [h]
  · refine List.mem_map.mpr ⟨s, hs, ?_⟩
    by_cases h : s.id = r0.id <;> simp [h]

theorem upsert_repository_conflict_frame_witness :
    ([⟨1, "u", "o", "n", true, "never", none, none⟩] : List RepoRow).find?
        (fun r => r.owner == "o" && r.name == "n") =
      some ⟨1, "u", "o", "n", true, "never", none, none⟩ ∧
    (api_upsert_repository ⟨[⟨1, "u", "o", "n", true, "never", none, none⟩], [], 2, 1⟩
        "u2" "o" "n").2 = 1 :=
  ⟨by decide,
    (upsert_repository_conflict_frame
        ⟨[⟨1, "u", "o", "n", true, "never", none, none⟩], [], 2, 1⟩ "u2" "o" "n" true
        ⟨1, "u", "o", "n", true, "never", none, none⟩ (by decide)).1⟩

/-- C1 counterexample: the external scan request (`trigger_scan`) inserts a
queue entry without any AlreadyQueued check — on a state where the
repository already has one `queued` entry, the API path produces a second
one, so at-most-one-active does not hold across both enqueue paths. -/
theorem trigger_scan_violates_at_most_one :
    (activeEntries ⟨[⟨1, "u", "o", "n", true, "never", none, none⟩],
        [⟨1, 1, "queued", 10, 0, none, none, none, none⟩], 2, 2⟩ 1).length = 1 ∧
    (activeEntries (trigger_scan_db
        ⟨[⟨1, "u", "o", "n", true, "never", none, none⟩],
         [⟨1, 1, "queued", 10, 0, none, none, none, none⟩], 2, 2⟩
        "u" "o" "n" 5 100).1 1).length = 2 := by
  refine ⟨?_, ?_⟩ <;> decide

theorem sched_upsert_queue_eq (db : DB) (u o n : String) (ha : Bool) :
    (sched_upsert_repository db u o n ha).1.queue = db.queue := by
  unfold sched_upsert_repository
  cases hf : db.repos.find? (fun r => r.owner == o && r.name == n) with
  | none => rfl
  | some r => rfl

theorem filter_singleton_length_le {α : Type} (p : α → Bool) (a : α) :
    (List.filter p [a]).length ≤ 1 :=
  le_trans (List.Sublist.length_le (List.filter_sublist _)) (by simp)

/-- C1 amended: the scheduler's enqueue path skips (returns false, queue
unchanged) iff an entry in queued/processing exists for the repository or
the repository was scanned less than 7 days ago; otherwise it appends
exactly one entry with status `queued`; this path preserves
at-most-one-active.  The external scan request path appends one `queued`
entry unconditionally, with no AlreadyQueued check. -/
theorem sched_enqueue_contract (db : DB) (url o n : String) (ha : Bool) (p : ℤ)
    (now : ℕ) :
    (atMostOneActive db →
      atMostOneActive (sched_queue_repository db url o n ha p now).1) ∧
    ((sched_queue_repository db url o n ha p now).2 = false →
      (sched_queue_repository db url o n ha p now).1.queue = db.queue) ∧
    ((sched_queue_repository db url o n ha p now).2 = true →
      (sched_queue_repository db url o n ha p now).1.queue = db.queue ++
        [⟨(sched_upsert_repository db url o n ha).1.nextQueueId,
          (sched_upsert_repository db url o n ha).2, "queued", p, now,
          none, none, none, none⟩]) ∧
    ((sched_queue_repository db url o n ha p now).2 = false ↔
      (activeEntries (sched_upsert_repository db url o n ha).1
          (sched_upsert_repository db url o n ha).2).length ≠ 0 ∨
        recently_scanned (sched_upsert_repository db url o n ha).1
          (sched_upsert_repository db url o n ha).2 now = true) ∧
    ((trigger_scan_db db url o n p now).1.queue =
      (api_upsert_repository db url o n).1.queue ++
        [⟨(api_upsert_repository db url o n).1.nextQueueId,
          (api_upsert_repository db url o n).2, "queued", p, now,
          none, none, none, none⟩]) := by
  have hq1 : (sched_upsert_repository db url o n ha).1.queue = db.queue :=
    sched_upsert_queue_eq db url o n ha
  by_cases hA : (activeEntries (sched_upsert_repository db url o n ha).1
      (sched_upsert_repository db url o n ha).2).length ≠ 0
  · have he : sched_queue_repository db url o n ha p now =
        ((sched_upsert_repository db url o n ha).1, false) := by
      simp only [sched_queue_repository]
      rw [if_pos hA]
    refine ⟨fun hInv rid => ?_, fun _ => ?_, fun hcontra => ?_, ?_, rfl⟩
    · rw [he]
      show ((sched_upsert_repository db url o n ha).1.queue.filter _).length ≤ 1
      rw [hq1]
      exact hInv rid
    · rw [he]
      exact hq1
    · rw [he] at hcontra
      exact absurd hcontra (by simp)
    · rw [he]
      simp [hA]
  · by_cases hR : recently_scanned (sched_upsert_repository db url o n ha).1
        (sched_upsert_repository db url o n ha).2 now = true
    · have he : sched_queue_repository db url o n ha p now =
          ((sched_upsert_repository db url o n ha).1, false) := by
        simp only [sched_queue_repository]
        rw [if_neg hA, if_pos hR]
      refine ⟨fun hInv rid => ?_, fun _ => ?_, fun hcontra => ?_, ?_, rfl⟩
      · rw [he]
        show ((sched_upsert_repository db url o n ha).1.queue.filter _).length ≤ 1
        rw [hq1]
        exact hInv rid
      · rw [he]
        exact hq1
      · rw [he] at hcontra
        exact absurd hcontra (by simp)
      · rw [he]
        simp [hR]
    · have he : sched_queue_repository db url o n ha p now =
          ({ (sched_upsert_repository db url o n ha).1 with
              queue := (sched_upsert_repository db url o n ha).1.queue ++
                [⟨(sched_upsert_repository db url o n ha).1.nextQueueId,
                  (sched_upsert_repository db url o n ha).2, "queued", p, now,
                  none, none, none, none⟩],
              nextQueueId := (sched_upsert_repository db url o n ha).1.nextQueueId + 1 },
            true) := by
        simp only [sched_queue_repository]
        rw [if_neg hA, if_neg hR]
      have h0 : (activeEntries (sched_upsert_repository db url o n ha).1
          (sched_upsert_repository db url o n ha).2).length = 0 := by
        push_neg at hA
        exact hA
      refine ⟨fun hInv rid => ?_, fun hcontra => ?_, fun _ => ?_, ?_, rfl⟩
      · rw [he]
        show ((((sched_upsert_repository db url o n ha).1.queue ++ _).filter _).length) ≤ 1
        rw [List.filter_append, List.length_append, hq1]
        by_cases hr : rid = (sched_upsert_repository db url o n ha).2
        · have hz : ((db.queue.filter fun q => q.repository_id == rid &&
              (q.status == "queued" || q.status == "processing")).length) = 0 := by
            rw [hr]
            show (activeEntries ⟨_, db.queue, _, _⟩
              (sched_upsert_repository db url o n ha).2).length = 0
            unfold activeEntries at h0 ⊢
            rw [hq1] at h0
            exact h0
          rw [hz]
          simpa using filter_singleton_length_le _ _
        · have hz : (List.filter (fun (q : QueueRow) => q.repository_id == rid &&
              (q.status == "queued" || q.status == "processing"))
              [⟨(sched_upsert_repository db url o n ha).1.nextQueueId,
                (sched_upsert_repository db url o n ha).2, "queued", p, now,
                none, none, none, none⟩]).length = 0 := by
            simp [Ne.symm hr]
          rw [hz]
          simpa using hInv rid
      · rw [he] at hcontra
        exact absurd hcontra (by simp)
      · rw [he]
        show (sched_upsert_repository db url o n ha).1.queue ++ _ = db.queue ++ _
        rw [hq1]
      · rw [he]
        simp [hA, hR]

theorem sched_enqueue_contract_witness :
    (sched_queue_repository ⟨[⟨1, "u", "o", "n", true, "never", none, none⟩],
        [], 2, 1⟩ "u2" "o" "n" true 10 100).1.queue =
      ([] : List QueueRow) ++ [⟨1, 1, "queued", 10, 100, none, none, none, none⟩] :=
  (sched_enqueue_contract ⟨[⟨1, "u", "o", "n", true, "never", none, none⟩], [], 2, 1⟩
      "u2" "o" "n" true 10 100).2.2.1 (by decide)

theorem ingest_preserves (rid : ℕ) (safe : List SafeFileRow) (fh : String → String)
    (dir : String) :
    ∀ (vulns : List OctoscanVuln) (acc : List Finding × ℕ),
      ∀ f ∈ (vulns.foldl (ingest_step rid safe fh dir) acc).1,
        f ∈ acc.1 ∨ is_file_safe safe f.file_path f.file_hash = false := by
  intro vulns
  induction vulns with
  | nil => exact fun acc f hf => Or.inl hf
  | cons v vs ih =>
    intro acc f hf
    rw [List.foldl_cons] at hf
    rcases ih (ingest_step rid safe fh dir acc v) f hf with h | h
    · simp only [ingest_step] at h
      by_cases hsafe : is_file_safe safe (clean_file_path v.filepath)
          (fh (join_if_rel dir v.filepath)) = true
      · rw [if_pos hsafe] at h
        exact Or.inl h
      · rw [if_neg hsafe] at h
        rcases List.mem_append.mp h with h1 | h1
        · exact Or.inl h1
        · right
          have hrec := List.mem_singleton.mp h1
          rw [hrec]
          simpa using hsafe
    · exact Or.inr h

/-- C6: `is_file_safe` holds exactly when a safe-files row matches the path
with a NULL hash or the provided hash; every finding whose cleaned path and
computed hash satisfy it is skipped during ingest (no row is inserted), so
with a NULL-hash safe-files row at a path, ingest inserts no finding at that
path at all — in particular never an open one — regardless of content
hash. -/
theorem safe_file_filter (rid : ℕ) (safe : List SafeFileRow) (fh : String → String)
    (dir : String) (vulns : List OctoscanVuln) (pth : String)
    (hrow : ∃ r ∈ safe, r.file_path = pth ∧ r.file_hash = none) :
    (∀ path hash, is_file_safe safe path hash = true ↔
      ∃ r ∈ safe, r.file_path = path ∧ (r.file_hash = none ∨ r.file_hash = some hash)) ∧
    (∀ f ∈ (store_vulnerabilities rid safe fh dir vulns).1,
      is_file_safe safe f.file_path f.file_hash = false) ∧
    (∀ f ∈ (store_vulnerabilities rid safe fh dir vulns).1, f.file_path ≠ pth) ∧
    (store_vulnerabilities rid safe fh dir vulns).1.filter
      (fun f => f.file_path == pth) = [] := by
  have hiff : ∀ path hash, is_file_safe safe path hash = true ↔
      ∃ r ∈ safe, r.file_path = path ∧ (r.file_hash = none ∨ r.file_hash = some hash) := by
    intro path hash
    unfold is_file_safe
    rw [List.any_eq_true]
    constructor
    · rintro ⟨r, hr, hcond⟩
      simp only [Bool.and_eq_true, Bool.or_eq_true, beq_iff_eq] at hcond
      exact ⟨r, hr, hcond⟩
    · rintro ⟨r, hr, h1, h2⟩
      refine ⟨r, hr, ?_⟩
      simp only [Bool.and_eq_true, Bool.or_eq_true, beq_iff_eq]
      exact ⟨h1, h2⟩
  have hmain : ∀ f ∈ (store_vulnerabilities rid safe fh dir vulns).1,
      is_file_safe safe f.file_path f.file_hash = false := by
    intro f hf
    rcases ingest_preserves rid safe fh dir vulns ([], 0) f hf with h | h
    · simp at h
    · exact h
  have hne : ∀ f ∈ (store_vulnerabilities rid safe fh dir vulns).1,
      f.file_path ≠ pth := by
    intro f hf heq
    have htrue : is_file_safe safe f.file_path f.file_hash = true := by
      rw [hiff]
      rcases hrow with ⟨r, hr, hp, hh⟩
      exact ⟨r, hr, hp.trans heq.symm, Or.inl hh⟩
    rw [hmain f hf] at htrue
    exact Bool.false_ne_true htrue
  refine ⟨hiff, hmain, hne, ?_⟩
  rw [List.filter_eq_nil_iff]
  intro f hf
  simp [hne f hf]

theorem safe_file_filter_witness :
    (∃ r ∈ ([⟨".github/workflows/ci.yml", none⟩] : List SafeFileRow),
      r.file_path = ".github/workflows/ci.yml" ∧ r.file_hash = none) ∧
    (store_vulnerabilities 1 [⟨".github/workflows/ci.yml", none⟩] (fun _ => "h")
        "/tmp/octoscan-workflows"
        [⟨"out/acme/tool/main/.github/workflows/ci.yml", "expression-injection",
          "msg", some 14, "snip"⟩]).1.filter
      (fun f => f.file_path == ".github/workflows/ci.yml") = [] :=
  ⟨by decide,
    (safe_file_filter 1 [⟨".github/workflows/ci.yml", none⟩] (fun _ => "h")
        "/tmp/octoscan-workflows"
        [⟨"out/acme/tool/main/.github/workflows/ci.yml", "expression-injection",
          "msg", some 14, "snip"⟩]
        ".github/workflows/ci.yml" (by decide)).2.2.2⟩

theorem mem_distinctList {α : Type} [DecidableEq α] (x : α) :
    ∀ l : List α, x ∈ distinctList l ↔ x ∈ l := by
  intro l
  induction l with
  | nil => simp [distinctList]
  | cons y rest ih =>
    simp only [distinctList, List.mem_cons, List.mem_filter, ih, decide_eq_true_eq]
    constructor
    · rintro (h | ⟨h, _⟩)
      · exact Or.inl h
      · exact Or.inr h
    · rintro (h | h)
      · exact Or.inl h
      · by_cases hxy : x = y
        · exact Or.inl hxy
        · exact Or.inr ⟨h, hxy⟩

/-- C7 counterexample: the view's GROUP BY key also contains `v.title` (and
`v.severity`), not just the claimed 5-tuple: two stored rows identical in
`(repository_id, file_path, file_hash, vulnerability_type, line_number)` on
branches `main` and `release` but with different titles produce two output
rows, each with a single branch, instead of one row with both branches. -/
theorem dedup_view_title_in_group_key :
    specKey5 (⟨1, 7, ".github/workflows/ci.yml", "h", "expression-injection",
        "critical", "A", some 14, 100, some 1, some "main"⟩ : VulnRow) =
      specKey5 (⟨2, 7, ".github/workflows/ci.yml", "h", "expression-injection",
        "critical", "B", some 14, 200, some 2, some "release"⟩ : VulnRow) ∧
    (list_vulnerabilities_view (fun _ => ("acme", "tool", "https://github.com/acme/tool"))
      [⟨1, 7, ".github/workflows/ci.yml", "h", "expression-injection", "critical",
        "A", some 14, 100, some 1, some "main"⟩,
       ⟨2, 7, ".github/workflows/ci.yml", "h", "expression-injection", "critical",
        "B", some 14, 200, some 2, some "release"⟩]).length = 2 ∧
    (list_vulnerabilities_view (fun _ => ("acme", "tool", "https://github.com/acme/tool"))
      [⟨1, 7, ".github/workflows/ci.yml", "h", "expression-injection", "critical",
        "A", some 14, 100, some 1, some "main"⟩,
       ⟨2, 7, ".github/workflows/ci.yml", "h", "expression-injection", "critical",
        "B", some 14, 200, some 2, some "release"⟩]).map (fun g => g.branches) =
      [["release"], ["main"]] := by
  refine ⟨?_, ?_, ?_⟩ <;> decide

/-- C7 amended: the view groups rows by `(repository_id, owner, name, url,
file_path, file_hash, vulnerability_type, severity, title, line_number)`
(the repository columns being determined by `repository_id`); each output
row aggregates the distinct non-null branch names, the distinct branch
count and the minimum `detected_at` of its group; the output is ordered by
the severity key critical=1, high=2, medium=3, low=4, else 5 with
`MIN(detected_at)` descending as tiebreak; two rows identical in the full
key on branches `main` and `release` yield one output row whose branch set
is `{main, release}`. -/
theorem dedup_view_contract (repoInfo : ℕ → String × String × String)
    (rows : List VulnRow) :
    (∀ v ∈ rows, ∃ g ∈ list_vulnerabilities_view repoInfo rows,
      g.key = rowKey repoInfo v) ∧
    (∀ g ∈ list_vulnerabilities_view repoInfo rows,
      g.branches = distinctList ((rows.filter
        (fun v => rowKey repoInfo v == g.key)).filterMap (fun v => v.branch_name)) ∧
      g.branch_count = (distinctList ((rows.filter
        (fun v => rowKey repoInfo v == g.key)).filterMap (fun v => v.branch_id))).length ∧
      g.min_detected_at = minNat ((rows.filter
        (fun v => rowKey repoInfo v == g.key)).map (fun v => v.detected_at))) ∧
    List.Sorted viewOrder (list_vulnerabilities_view repoInfo rows) ∧
    (list_vulnerabilities_view (fun _ => ("acme", "tool", "https://github.com/acme/tool"))
      [⟨1, 7, ".github/workflows/ci.yml", "h", "expression-injection", "critical",
        "A", some 14, 100, some 1, some "main"⟩,
       ⟨2, 7, ".github/workflows/ci.yml", "h", "expression-injection", "critical",
        "A", some 14, 200, some 2, some "release"⟩] =
      [⟨⟨7, "acme", "tool", "https://github.com/acme/tool", ".github/workflows/ci.yml",
         "h", "expression-injection", "critical", "A", some 14⟩,
        1, ["main", "release"], 2, 100⟩]) := by
  refine ⟨fun v hv => ?_, fun g hg => ?_, ?_, by decide⟩
  · have hk2 : rowKey repoInfo v ∈ distinctList (rows.map (rowKey repoInfo)) :=
      (mem_distinctList _ _).mpr (List.mem_map_of_mem _ hv)
    refine ⟨aggregateGroup (rowKey repoInfo v)
      (rows.filter (fun w => rowKey repoInfo w == rowKey repoInfo v)), ?_, rfl⟩
    unfold list_vulnerabilities_view
    rw [List.mem_insertionSort]
    exact List.mem_map.mpr ⟨_, hk2, rfl⟩
  · unfold list_vulnerabilities_view at hg
    rw [List.mem_insertionSort] at hg
    rcases List.mem_map.mp hg with ⟨k, hk, hgk⟩
    rw [← hgk]
    exact ⟨rfl, rfl, rfl⟩
  · unfold list_vulnerabilities_view
    exact List.sorted_insertionSort viewOrder _

theorem dedup_view_contract_witness :
    (⟨⟨7, "acme", "tool", "https://github.com/acme/tool", ".github/workflows/ci.yml",
        "h", "expression-injection", "critical", "A", some 14⟩,
      1, ["main", "release"], 2, 100⟩ : DedupOut) ∈
      list_vulnerabilities_view (fun _ => ("acme", "tool", "https://github.com/acme/tool"))
        [⟨1, 7, ".github/workflows/ci.yml", "h", "expression-injection", "critical",
          "A", some 14, 100, some 1, some "main"⟩,
         ⟨2, 7, ".github/workflows/ci.yml", "h", "expression-injection", "critical",
          "A", some 14, 200, some 2, some "release"⟩] ∧
    (⟨⟨7, "acme", "tool", "https://github.com/acme/tool", ".github/workflows/ci.yml",
        "h", "expression-injection", "critical", "A", some 14⟩,
      1, ["main", "release"], 2, 100⟩ : DedupOut).branches =
      distinctList ((([⟨1, 7, ".github/workflows/ci.yml", "h", "expression-injection",
          "critical", "A", some 14, 100, some 1, some "main"⟩,
         ⟨2, 7, ".github/workflows/ci.yml", "h", "expression-injection", "critical",
          "A", some 14, 200, some 2, some "release"⟩] : List VulnRow).filter
        (fun v => rowKey (fun _ => ("acme", "tool", "https://github.com/acme/tool")) v ==
          (⟨⟨7, "acme", "tool", "https://github.com/acme/tool", ".github/workflows/ci.yml",
             "h", "expression-injection", "critical", "A", some 14⟩,
           1, ["main", "release"], 2, 100⟩ : DedupOut).key)).filterMap
        (fun v => v.branch_name)) :=
  ⟨by decide,
    ((dedup_view_contract (fun _ => ("acme", "tool", "https://github.com/acme/tool"))
        [⟨1, 7, ".github/workflows/ci.yml", "h", "expression-injection", "critical",
          "A", some 14, 100, some 1, some "main"⟩,
         ⟨2, 7, ".github/workflows/ci.yml", "h", "expression-injection", "critical",
          "A", some 14, 200, some 2, some "release"⟩]).2.1 _ (by decide)).1⟩

end GithubScanner
